import Mathlib

/-!
Shallow embedding of the request/response correlation bridge implemented in
`roblox_mcp_server.py` (class `RobloxBridge`).

The bridge keeps a pending-request table `_pending : dict[str, PendingRequest]`
mapping request ids to asyncio futures, a `_connected` event, a `_stop` event
and the current websocket `_websocket`.  We model Python dictionaries as
association lists with distinct keys, asyncio futures as entries of an indexed
store (`List FutureState`, a future id is an index), and each `async` method of
the source as an atomic state transformer, mirroring the source line by line.
-/

namespace RobloxMcp

/-- JSON values as produced by `json.loads`.  Numbers are modelled as
rationals; the fractional representation of Python floats is irrelevant to
every operation modelled here (numbers are only tested for truthiness). -/
inductive JVal where
  | null
  | bool (b : Bool)
  | num (q : ℚ)
  | str (s : String)
  | arr (elems : List JVal)
  | obj (fields : List (String × JVal))

/-- Python truthiness (`bool(x)`) of a decoded JSON value: `None`, `False`,
zero, the empty string and empty containers are falsy, everything else is
truthy.  Used by `if message.get("success", True):` in `_dispatch` and by
`if payload:` in `_request`. -/
def JVal.truthy : JVal → Bool
  | .null => false
  | .bool b => b
  | .num q => !(q == 0)
  | .str s => !(s == "")
  | .arr elems => !elems.isEmpty
  | .obj fields => !fields.isEmpty

/-- `d.get(k)` on a Python dict modelled as an association list (keys of a
Python dict are distinct, so first match is the match). -/
def dictGet (d : List (String × JVal)) (k : String) : Option JVal :=
  match d.find? (fun q => q.1 == k) with
  | some q => some q.2
  | none => none

/-- `d.get(k, dflt)`. -/
def dictGetD (d : List (String × JVal)) (k : String) (dflt : JVal) : JVal :=
  (dictGet d k).getD dflt

/-- `d.update(u)` (source line `message.update(payload)`): values of keys
already present in `d` are overwritten in place, keys of `u` not present in
`d` are appended in order. -/
def dictUpdate (d u : List (String × JVal)) : List (String × JVal) :=
  (d.map fun q =>
    match dictGet u q.1 with
    | some v => (q.1, v)
    | none => q) ++
  u.filter fun q => !(d.any fun r => r.1 == q.1)

/-- Test `str(message.get("type")) == tag` for the tags `"response"`,
`"event"`, `"hello"` that `_dispatch` compares against.  The Python `str()`
of a non-string value (`"None"`, `"True"`, a numeral, a list or dict repr)
never equals one of these tags, so equality with the string value is
equivalent. -/
def strTagEq : Option JVal → String → Bool
  | some (.str s), tag => s == tag
  | _, _ => false

/-- Error taxonomy of the bridge, one constructor per distinct exception the
source can deliver to a caller:
* `notConnected` — `RobloxBridgeError("Roblox Studio plugin is not connected")`;
* `peerReported text` — `RobloxBridgeError(error_text)` raised by `_dispatch`
  for a response with a falsy `success` field;
* `requestTimeout command` — `RobloxBridgeTimeout(f"Timed out waiting for
  {command}")`;
* `peerDisconnected` — `RuntimeError("Roblox Studio disconnected")` passed to
  `_fail_pending` by `_handle_connection`. -/
inductive BridgeErr where
  | notConnected
  | peerReported (text : JVal)
  | requestTimeout (command : String)
  | peerDisconnected

/-- State of one `asyncio.Future`: still pending, resolved by `set_result`,
or resolved by `set_exception`. -/
inductive FutureState where
  | pending
  | result (v : JVal)
  | failure (e : BridgeErr)

/-- `future.done()`. -/
def FutureState.isPending : FutureState → Bool
  | .pending => true
  | _ => false

/-- The dataclass `PendingRequest(future, command)`; the future is an index
into the future store of the bridge state. -/
structure PendingRequest where
  future : Nat
  command : String
deriving DecidableEq

/-- State of a `RobloxBridge` instance together with the store of futures it
has created and a log of the close frames it has sent.
* `connected` — the `_connected` asyncio event;
* `stop` — the `_stop` asyncio event;
* `websocket` — `_websocket` (an id, or `none` for Python `None`);
* `closedWs` — ids of websockets whose `close` has been awaited
  (`websocket.closed` is true exactly for these);
* `sentCloses` — the `(websocket, code, reason)` triples of every
  `websocket.close(code=..., reason=...)` call performed, in order;
* `pending` — the `_pending` dict;
* `futures` — the store of futures created by `loop.create_future()`. -/
structure BridgeState where
  connected : Bool
  stop : Bool
  websocket : Option Nat
  closedWs : List Nat
  sentCloses : List (Nat × Nat × String)
  pending : List (String × PendingRequest)
  futures : List FutureState

/-- `self._pending.pop(request_id, None)` restricted to removal: remove the
first (with distinct keys: the only) entry with key `k`. -/
def popKey (p : List (String × PendingRequest)) (k : String) :
    List (String × PendingRequest) :=
  match p with
  | [] => []
  | q :: rest => if q.1 == k then rest else q :: popKey rest k

/-- Outcome of `self._pending.pop(request_id, None)`:
* `typeError` — CPython raises `TypeError: unhashable type` before looking
  anything up;
* `missing` — the key is not present (or the empty-dict fast path applies)
  and the default `None` is returned;
* `popped pr rest` — the entry `pr` was found and removed, leaving `rest`. -/
inductive PopResult where
  | typeError
  | missing
  | popped (pr : PendingRequest) (rest : List (String × PendingRequest))

/-- `self._pending.pop(request_id, None)` where `request_id =
message.get("requestId")` is an arbitrary decoded JSON value (or absent,
i.e. Python `None`).  Every key of `_pending` is a uuid hex string, so a
hashable non-string id (`None`, a bool, a number) compares unequal to every
key and the pop returns the default; but a JSON array or object decodes to
a Python list or dict, which is unhashable: on a non-empty dict the pop
raises `TypeError` (only the empty-dict fast path returns the default
without hashing the key). -/
def popPending (p : List (String × PendingRequest)) (rid : Option JVal) :
    PopResult :=
  match rid with
  | some (.str k) =>
    match p.find? (fun q => q.1 == k) with
    | some q => PopResult.popped q.2 (popKey p k)
    | none => PopResult.missing
  | some (.arr _) =>
    if p.isEmpty then PopResult.missing else PopResult.typeError
  | some (.obj _) =>
    if p.isEmpty then PopResult.missing else PopResult.typeError
  | _ => PopResult.missing

/-- `self._pending[request_id] = PendingRequest(...)`: Python dict assignment
overwrites an existing key in place and appends a fresh key. -/
def insertPending (p : List (String × PendingRequest)) (k : String)
    (v : PendingRequest) : List (String × PendingRequest) :=
  if p.any fun q => q.1 == k then
    p.map fun q => if q.1 == k then (k, v) else q
  else
    p ++ [(k, v)]

/-- One iteration of the loop in `_fail_pending`:
`if not pending.future.done(): pending.future.set_exception(exc)`. -/
def failPendingStep (e : BridgeErr) (fs : List FutureState)
    (q : String × PendingRequest) : List FutureState :=
  match fs.get? q.2.future with
  | some FutureState.pending => fs.set q.2.future (FutureState.failure e)
  | _ => fs

/-- `_fail_pending(exc)` (source lines 220-224): resolve every not-yet-done
pending future with `exc`, then `self._pending.clear()`. -/
def fail_pending (s : BridgeState) (e : BridgeErr) : BridgeState :=
  { s with futures := s.pending.foldl (failPendingStep e) s.futures,
           pending := [] }

/-- The `finally` block of `_handle_connection` (source lines 180-183), run
whenever the read loop of a session terminates (peer close, protocol error,
shutdown or supersession): `self._connected.clear()`, `self._websocket =
None`, `self._fail_pending(RuntimeError("Roblox Studio disconnected"))`. -/
def terminationCleanup (s : BridgeState) : BridgeState :=
  fail_pending { s with connected := false, websocket := none }
    BridgeErr.peerDisconnected

/-- `_dispatch` (source lines 185-218) as driven by the read loop, applied
to an already decoded message dict.  A `json.JSONDecodeError` leaves the
state unchanged (log only) and is not modelled further.  For a `"response"`
message `self._pending.pop(request_id, None)` runs first:
* `popped`: the slot is resolved in the same step —
  `set_result(message.get("data"))` when `message.get("success", True)` is
  truthy, otherwise `set_exception(RobloxBridgeError(message.get("error",
  "Roblox plugin reported failure")))`;
* `missing`: the branch only logs a warning;
* `typeError`: the `TypeError` escapes `_dispatch` and the `async for` body
  (it is not a `ConnectionClosed`, so the except clause at source line 178
  does not catch it), so the read loop terminates and its finally block
  runs — the resulting bridge state is exactly `terminationCleanup s`.
The `"event"`, `"hello"` and unrecognized branches only log. -/
def dispatch (s : BridgeState) (message : List (String × JVal)) : BridgeState :=
  if strTagEq (dictGet message "type") "response" then
    match popPending s.pending (dictGet message "requestId") with
    | PopResult.typeError => terminationCleanup s
    | PopResult.missing => s
    | PopResult.popped pr rest =>
      if (dictGetD message "success" (JVal.bool true)).truthy then
        { s with pending := rest,
                 futures := s.futures.set pr.future
                   (FutureState.result (dictGetD message "data" JVal.null)) }
      else
        { s with pending := rest,
                 futures := s.futures.set pr.future
                   (FutureState.failure (BridgeErr.peerReported
                     (dictGetD message "error"
                       (JVal.str "Roblox plugin reported failure")))) }
  else s

/-- The head of `_handle_connection` (source lines 163-168): if a websocket
is current, close it with code 4001 reason `"Superseded"`; then install the
new websocket and set `_connected`. -/
def acceptConnection (s : BridgeState) (ws : Nat) : BridgeState :=
  let s1 :=
    match s.websocket with
    | some old =>
      { s with sentCloses := s.sentCloses ++ [(old, 4001, "Superseded")],
               closedWs := old :: s.closedWs }
    | none => s
  { s1 with websocket := some ws, connected := true }

/-- The registration step of `_request` (source lines 140-143): create a
fresh future (`loop.create_future()`, modelled as appending a pending slot to
the store, whose index is the new future id) and insert
`PendingRequest(future, command)` under the fresh uuid key. -/
def registerRequest (s : BridgeState) (command requestId : String) :
    BridgeState :=
  { s with futures := s.futures ++ [FutureState.pending],
           pending := insertPending s.pending requestId
             ⟨s.futures.length, command⟩ }

/-- The `except asyncio.TimeoutError` handler of `_request` (source lines
155-159): `if not future.done(): future.set_exception(RobloxBridgeTimeout
(...))`, then `self._pending.pop(request_id, None)`.  The handler uses the
future captured at registration (`fid`), not a table lookup. -/
def requestTimeoutExpiry (s : BridgeState) (requestId : String) (fid : Nat)
    (command : String) : BridgeState :=
  { s with
    futures :=
      match s.futures.get? fid with
      | some FutureState.pending =>
        s.futures.set fid
          (FutureState.failure (BridgeErr.requestTimeout command))
      | _ => s.futures,
    pending := popKey s.pending requestId }

/-- `shutdown` (source lines 77-81): `self._stop.set()`; then
`if self._websocket and not self._websocket.closed: await
self._websocket.close(code=4000, reason="Server shutdown")`. -/
def shutdown (s : BridgeState) : BridgeState :=
  let s1 := { s with stop := true }
  match s1.websocket with
  | some w =>
    if w ∈ s1.closedWs then s1
    else
      { s1 with sentCloses := s1.sentCloses ++ [(w, 4000, "Server shutdown")],
                closedWs := w :: s1.closedWs }
  | none => s1

/-- Distinctness of the keys of the `_pending` dict (a Python dict never
holds two equal keys). -/
def keysNodup : List (String × PendingRequest) → Bool
  | [] => true
  | q :: rest => !(rest.any fun r => r.1 == q.1) && keysNodup rest

/-- Distinctness of the future ids referenced by the table (each request gets
its own `loop.create_future()`). -/
def fidsNodup : List (String × PendingRequest) → Bool
  | [] => true
  | q :: rest => !(rest.any fun r => r.2.future == q.2.future) && fidsNodup rest

/-- `future.done()` is false for the future at index `i`. -/
def pendingAt (fs : List FutureState) (i : Nat) : Bool :=
  match fs.get? i with
  | some FutureState.pending => true
  | _ => false

/-- The state discipline the source maintains on the table: dict keys are
distinct, each table entry references its own future, and every future still
referenced by the table is unresolved (every path that resolves a future
removes its entry in the same step). -/
def wellFormed (s : BridgeState) : Bool :=
  keysNodup s.pending && fidsNodup s.pending &&
    s.pending.all fun q => pendingAt s.futures q.2.future

/-! ### Timed model of `wait_until_ready` and `_request`

The waiting behaviour of `wait_until_ready` (source lines 83-90) and
`_request` (source lines 129-159) is modelled against an environment that
fixes when the peer connects (`readyAfter` after the call starts, `none` for
never) and when the response future is resolved (`respondAfter` after the
send, `none` for never).  `asyncio.wait_for(w, timeout=t)` completes `w` if
it finishes within `t` and raises `asyncio.TimeoutError` at `t` otherwise. -/

/-- Outcome of `wait_until_ready`: returns after `elapsed`, raises
`asyncio.TimeoutError` (the connection-timeout failure, a type distinct from
`RobloxBridgeTimeout`) after `elapsed`, or never returns. -/
inductive ReadyOutcome where
  | ready (elapsed : ℚ)
  | connTimeout (elapsed : ℚ)
  | hangs
deriving DecidableEq

/-- `wait_until_ready` (source lines 83-90): return at once if `_connected`
is set; with `timeout=None` await the event unboundedly; otherwise
`asyncio.wait_for(self._connected.wait(), timeout=timeout)`. -/
def wait_until_ready (connected : Bool) (timeout : Option ℚ)
    (readyAfter : Option ℚ) : ReadyOutcome :=
  if connected then ReadyOutcome.ready 0
  else
    match timeout, readyAfter with
    | none, some r => ReadyOutcome.ready r
    | none, none => ReadyOutcome.hangs
    | some t, some r =>
      if r ≤ t then ReadyOutcome.ready r else ReadyOutcome.connTimeout t
    | some t, none => ReadyOutcome.connTimeout t

/-- Outcome of `_request` as seen by the caller, with the total elapsed time:
normal return, `asyncio.TimeoutError` escaping from `wait_until_ready`,
`RobloxBridgeError` from the not-connected guard, `RobloxBridgeTimeout` from
the response wait, or no return. -/
inductive CallOutcome where
  | success (elapsed : ℚ)
  | connTimeout (elapsed : ℚ)
  | notConnected (elapsed : ℚ)
  | reqTimeout (elapsed : ℚ)
  | hangs
deriving DecidableEq

/-- Total elapsed time of an outcome that returns or raises. -/
def CallOutcome.elapsedTime : CallOutcome → Option ℚ
  | .success e => some e
  | .connTimeout e => some e
  | .notConnected e => some e
  | .reqTimeout e => some e
  | .hangs => none

/-- The timing skeleton of `_request` (source lines 129-159):
`await self.wait_until_ready(timeout=timeout)` (outside the try block, so its
`asyncio.TimeoutError` escapes to the caller); the
`if not self._websocket or self._websocket.closed` guard; then
`await future` when `timeout is None`, else
`asyncio.wait_for(future, timeout=timeout)` — note the result wait is bounded
by the same full `timeout` value, not by what remains of it. -/
def requestTiming (connected : Bool) (timeout : Option ℚ)
    (readyAfter : Option ℚ) (wsOpen : Bool) (respondAfter : Option ℚ) :
    CallOutcome :=
  match wait_until_ready connected timeout readyAfter with
  | ReadyOutcome.hangs => CallOutcome.hangs
  | ReadyOutcome.connTimeout e => CallOutcome.connTimeout e
  | ReadyOutcome.ready e =>
    if !wsOpen then CallOutcome.notConnected e
    else
      match timeout, respondAfter with
      | none, some r => CallOutcome.success (e + r)
      | none, none => CallOutcome.hangs
      | some t, some r =>
        if r ≤ t then CallOutcome.success (e + r)
        else CallOutcome.reqTimeout (e + t)
      | some t, none => CallOutcome.reqTimeout (e + t)

/-- The outbound frame construction of `_request` (source lines 144-146):
`message = {"type": command, "requestId": request_id}`, then
`if payload: message.update(payload)` — `payload` being `None` or an empty
dict skips the update. -/
def buildMessage (command requestId : String)
    (payload : Option (List (String × JVal))) : List (String × JVal) :=
  let message : List (String × JVal) :=
    [("type", JVal.str command), ("requestId", JVal.str requestId)]
  match payload with
  | none => message
  | some p => if p.isEmpty then message else dictUpdate message p

/-! ### Helper lemmas about the future store and the pending table -/

lemma get_set_self (l : List FutureState) (i : Nat) (v : FutureState)
    (h : i < l.length) : (l.set i v).get? i = some v := by
  induction l generalizing i with
  | nil => simp at h
  | cons a t ih =>
    cases i with
    | zero => rfl
    | succ n => simpa using ih n (by simpa using h)

lemma get_set_ne (l : List FutureState) (i j : Nat) (v : FutureState)
    (h : i ≠ j) : (l.set i v).get? j = l.get? j := by
  induction l generalizing i j with
  | nil => rfl
  | cons a t ih =>
    cases i with
    | zero =>
      cases j with
      | zero => exact absurd rfl h
      | succ m => rfl
    | succ n =>
      cases j with
      | zero => rfl
      | succ m => simpa using ih n m (fun hh => h (by rw [hh]))

lemma lt_length_of_get (l : List FutureState) (i : Nat) (v : FutureState)
    (h : l.get? i = some v) : i < l.length := by
  induction l generalizing i with
  | nil => simp [List.get?] at h
  | cons a t ih =>
    cases i with
    | zero => simp
    | succ n => simpa using ih n (by simpa using h)

lemma pendingAt_iff (fs : List FutureState) (i : Nat) :
    pendingAt fs i = true ↔ fs.get? i = some FutureState.pending := by
  unfold pendingAt
  cases hg : fs.get? i with
  | none => simp
  | some st => cases st <;> simp

lemma wf_parts (s : BridgeState) (h : wellFormed s = true) :
    keysNodup s.pending = true ∧ fidsNodup s.pending = true ∧
      ∀ q ∈ s.pending, s.futures.get? q.2.future = some FutureState.pending := by
  unfold wellFormed at h
  rw [Bool.and_eq_true, Bool.and_eq_true, List.all_eq_true] at h
  exact ⟨h.1.1, h.1.2, fun q hq => (pendingAt_iff _ _).mp (h.2 q hq)⟩

lemma find_eq_of_mem (p : List (String × PendingRequest)) (k : String)
    (pr : PendingRequest) (hnd : keysNodup p = true) (hmem : (k, pr) ∈ p) :
    p.find? (fun q => q.1 == k) = some (k, pr) := by
  induction p with
  | nil => simp at hmem
  | cons a rest ih =>
    unfold keysNodup at hnd
    rw [Bool.and_eq_true, Bool.not_eq_true', List.any_eq_false] at hnd
    rcases List.mem_cons.mp hmem with hh | ht
    · subst hh
      simp [List.find?_cons]
    · have hne := hnd.1 (k, pr) ht
      have hkne : k ≠ a.1 := by simpa using hne
      have hne2 : (a.1 == k) = false := by
        rw [beq_eq_false_iff_ne]
        exact fun hh => hkne hh.symm
      rw [List.find?_cons, hne2]
      exact ih hnd.2 ht

lemma mem_popKey (p : List (String × PendingRequest)) (k : String)
    (q : String × PendingRequest) (h : q ∈ popKey p k) : q ∈ p := by
  induction p with
  | nil => simp [popKey] at h
  | cons a rest ih =>
    unfold popKey at h
    cases hk : a.1 == k with
    | true =>
      rw [hk, if_pos rfl] at h
      exact List.mem_cons_of_mem _ h
    | false =>
      rw [hk] at h
      simp only [Bool.false_eq_true, if_false] at h
      rcases List.mem_cons.mp h with hh | ht
      · exact hh ▸ List.mem_cons_self _ _
      · exact List.mem_cons_of_mem _ (ih ht)

lemma popKey_key_ne (p : List (String × PendingRequest)) (k : String)
    (hnd : keysNodup p = true) (q : String × PendingRequest)
    (h : q ∈ popKey p k) : q.1 ≠ k := by
  induction p with
  | nil => simp [popKey] at h
  | cons a rest ih =>
    unfold keysNodup at hnd
    rw [Bool.and_eq_true, Bool.not_eq_true', List.any_eq_false] at hnd
    unfold popKey at h
    cases hk : a.1 == k with
    | true =>
      rw [hk, if_pos rfl] at h
      have hqa : q.1 ≠ a.1 := by simpa using hnd.1 q h
      intro hq
      exact hqa (hq.trans (eq_of_beq hk).symm)
    | false =>
      rw [hk] at h
      simp only [Bool.false_eq_true, if_false] at h
      rcases List.mem_cons.mp h with hh | ht
      · subst hh
        rw [beq_eq_false_iff_ne] at hk
        exact hk
      · exact ih hnd.2 ht

lemma fold_preserve_done (e : BridgeErr) (l : List (String × PendingRequest))
    (fs : List FutureState) (i : Nat)
    (h : fs.get? i ≠ some FutureState.pending) :
    (l.foldl (failPendingStep e) fs).get? i = fs.get? i := by
  induction l generalizing fs with
  | nil => rfl
  | cons a rest ih =>
    rw [List.foldl_cons]
    have hstep : (failPendingStep e fs a).get? i = fs.get? i := by
      unfold failPendingStep
      cases hg : fs.get? a.2.future with
      | none => rfl
      | some st =>
        cases st with
        | pending =>
          have hne : a.2.future ≠ i := fun hh => h (hh ▸ hg)
          exact get_set_ne _ _ _ _ hne
        | result v => rfl
        | failure e2 => rfl
    rw [ih (failPendingStep e fs a) (by rw [hstep]; exact h)]
    exact hstep

lemma fold_preserve_not_mem (e : BridgeErr)
    (l : List (String × PendingRequest)) (fs : List FutureState) (i : Nat)
    (h : ∀ q ∈ l, q.2.future ≠ i) :
    (l.foldl (failPendingStep e) fs).get? i = fs.get? i := by
  induction l generalizing fs with
  | nil => rfl
  | cons a rest ih =>
    rw [List.foldl_cons]
    have hstep : (failPendingStep e fs a).get? i = fs.get? i := by
      unfold failPendingStep
      cases hg : fs.get? a.2.future with
      | none => rfl
      | some st =>
        cases st with
        | pending => exact get_set_ne _ _ _ _ (h a (List.mem_cons_self a rest))
        | result v => rfl
        | failure e2 => rfl
    rw [ih _ (fun q hq => h q (List.mem_cons_of_mem _ hq))]
    exact hstep

lemma fold_fails_mem (e : BridgeErr) (l : List (String × PendingRequest))
    (fs : List FutureState) (q : String × PendingRequest)
    (hmem : q ∈ l) (hnd : fidsNodup l = true)
    (hall : ∀ r ∈ l, fs.get? r.2.future = some FutureState.pending) :
    (l.foldl (failPendingStep e) fs).get? q.2.future
      = some (FutureState.failure e) := by
  induction l generalizing fs with
  | nil => simp at hmem
  | cons a rest ih =>
    unfold fidsNodup at hnd
    rw [Bool.and_eq_true, Bool.not_eq_true', List.any_eq_false] at hnd
    have hstepped : failPendingStep e fs a
        = fs.set a.2.future (FutureState.failure e) := by
      unfold failPendingStep
      rw [hall a (List.mem_cons_self a rest)]
    rcases List.mem_cons.mp hmem with hh | ht
    · subst hh
      rw [List.foldl_cons, hstepped]
      rw [fold_preserve_not_mem e rest _ q.2.future
        (fun r hr => by simpa using hnd.1 r hr)]
      exact get_set_self _ _ _
        (lt_length_of_get _ _ _ (hall q (List.mem_cons_self q rest)))
    · rw [List.foldl_cons, hstepped]
      apply ih _ ht hnd.2
      intro r hr
      have hne : r.2.future ≠ a.2.future := by simpa using hnd.1 r hr
      rw [get_set_ne _ _ _ _ (fun hh2 => hne hh2.symm)]
      exact hall r (List.mem_cons_of_mem _ hr)

lemma ne_pending_of_isPending_false (st : FutureState)
    (h : st.isPending = false) : st ≠ FutureState.pending := by
  intro hh
  subst hh
  simp [FutureState.isPending] at h

lemma dictGet_cons (x : String × JVal) (l : List (String × JVal))
    (k : String) :
    dictGet (x :: l) k = if x.1 == k then some x.2 else dictGet l k := by
  unfold dictGet
  rw [List.find?_cons]
  cases hx : x.1 == k <;> simp [hx]

lemma popPending_nil (rid : Option JVal) :
    popPending [] rid = PopResult.missing := by
  cases rid with
  | none => rfl
  | some v => cases v <;> rfl

lemma popPending_str (p : List (String × PendingRequest)) (k : String) :
    popPending p (some (JVal.str k))
      = match p.find? (fun q => q.1 == k) with
        | some q => PopResult.popped q.2 (popKey p k)
        | none => PopResult.missing := rfl

lemma popPending_arr (p : List (String × PendingRequest))
    (elems : List JVal) :
    popPending p (some (JVal.arr elems))
      = if p.isEmpty then PopResult.missing else PopResult.typeError := rfl

lemma popPending_obj (p : List (String × PendingRequest))
    (fields : List (String × JVal)) :
    popPending p (some (JVal.obj fields))
      = if p.isEmpty then PopResult.missing else PopResult.typeError := rfl

lemma isEmpty_false_of_ne_nil (p : List (String × PendingRequest))
    (h : p ≠ []) : p.isEmpty = false := by
  cases hp : p with
  | nil => exact absurd hp h
  | cons a rest => rfl

lemma dispatch_found (s : BridgeState) (m : List (String × JVal))
    (pr : PendingRequest) (rest : List (String × PendingRequest))
    (htype : strTagEq (dictGet m "type") "response" = true)
    (hpop : popPending s.pending (dictGet m "requestId")
      = PopResult.popped pr rest) :
    dispatch s m =
      if (dictGetD m "success" (JVal.bool true)).truthy then
        { s with pending := rest,
                 futures := s.futures.set pr.future
                   (FutureState.result (dictGetD m "data" JVal.null)) }
      else
        { s with pending := rest,
                 futures := s.futures.set pr.future
                   (FutureState.failure (BridgeErr.peerReported
                     (dictGetD m "error"
                       (JVal.str "Roblox plugin reported failure")))) } := by
  unfold dispatch
  rw [htype, hpop]
  exact if_pos rfl

lemma dispatch_pop_none (s : BridgeState) (m : List (String × JVal))
    (h : popPending s.pending (dictGet m "requestId") = PopResult.missing) :
    dispatch s m = s := by
  unfold dispatch
  cases htag : strTagEq (dictGet m "type") "response" with
  | true => simp [h]
  | false => simp [htag]

/-! ### Claim theorems -/

/-- Claim C2: with a peer already connected `wait_until_ready` returns
immediately (elapsed 0); with a finite timeout while no peer is connected
and none ever connects, `wait_until_ready` fails with the connection-timeout
failure (`asyncio.TimeoutError`, a type distinct from `RobloxBridgeTimeout`)
after exactly the timeout, and a call issued through `_request` under the
same circumstances fails the same way, since `wait_until_ready` is awaited
outside the try block of `_request`. -/
theorem C2_connection_timeout (t : ℚ) (timeout readyAfter : Option ℚ)
    (wsOpen : Bool) (respondAfter : Option ℚ) :
    wait_until_ready true timeout readyAfter = ReadyOutcome.ready 0 ∧
    wait_until_ready false (some t) none = ReadyOutcome.connTimeout t ∧
    requestTiming false (some t) none wsOpen respondAfter
      = CallOutcome.connTimeout t :=
  ⟨rfl, rfl, rfl⟩

/-- Claim C1 counterexample: with a 10 second timeout, readiness consumed 6
seconds, leaving a remaining budget of 4; a response arriving 6 seconds
after the send exceeds that remaining budget, yet the call returns success
at total elapsed time 12 — the result wait was bounded by a fresh full
timeout of 10, not by the remaining 4, and the total exceeds the single
timeout budget. -/
theorem C1_cex :
    requestTiming false (some 10) (some 6) true (some 6)
      = CallOutcome.success 12 ∧
    ¬ ((6 : ℚ) ≤ 10 - 6) ∧ ¬ ((12 : ℚ) ≤ 10) := by
  refine ⟨?_, by norm_num, by norm_num⟩
  have h6 : ((6 : ℚ) ≤ 10) := by norm_num
  simp [requestTiming, wait_until_ready, h6]
  norm_num

/-- Claim C1 (amended): in `_request`, a finite timeout is applied in full to
the readiness wait and then again in full — not reduced by the time already
spent waiting for readiness — to the result-slot wait, so the total elapsed
time of a call is bounded by twice the timeout rather than by the timeout;
with timeout none both waits are unbounded and the call never times out. -/
theorem C1_amended_budget (t readyAfter respondAfter : ℚ)
    (hr : readyAfter ≤ t) :
    (respondAfter ≤ t →
      requestTiming false (some t) (some readyAfter) true (some respondAfter)
        = CallOutcome.success (readyAfter + respondAfter)) ∧
    (t < respondAfter →
      requestTiming false (some t) (some readyAfter) true (some respondAfter)
        = CallOutcome.reqTimeout (readyAfter + t)) ∧
    (∀ q, (requestTiming false (some t) (some readyAfter) true
        (some respondAfter)).elapsedTime = some q → q ≤ 2 * t) ∧
    requestTiming false none (some readyAfter) true (some respondAfter)
      = CallOutcome.success (readyAfter + respondAfter) := by
  refine ⟨?_, ?_, ?_, rfl⟩
  · intro hresp
    simp [requestTiming, wait_until_ready, hr, hresp]
  · intro hresp
    simp [requestTiming, wait_until_ready, hr, not_le.mpr hresp]
  · intro q hq
    by_cases hresp : respondAfter ≤ t
    · simp [requestTiming, wait_until_ready, hr, hresp,
        CallOutcome.elapsedTime] at hq
      rw [← hq]
      linarith
    · simp [requestTiming, wait_until_ready, hr, hresp,
        CallOutcome.elapsedTime] at hq
      rw [← hq]
      linarith

/-- Witness for C1 (amended) at timeout 10, readiness after 6, response 6
seconds after the send. -/
theorem C1_amended_budget_witness :
    requestTiming false (some 10) (some 6) true (some 6)
      = CallOutcome.success (6 + 6) :=
  (C1_amended_budget 10 6 6 (by norm_num)).1 (by norm_num)

/-- Bridge state with one live pending request, used as a concrete input. -/
def oneReqState : BridgeState :=
  { connected := true, stop := false, websocket := some 0, closedWs := [],
    sentCloses := [], pending := [("a", ⟨0, "READ_SCRIPT"⟩)],
    futures := [FutureState.pending] }

/-- A response frame bearing an id that matches no pending request. -/
def staleMsg : List (String × JVal) :=
  [("type", JVal.str "response"), ("requestId", JVal.str "unknown-id"),
   ("success", JVal.bool true), ("data", JVal.obj [])]

/-- A response frame whose requestId is a JSON array, which `json.loads`
decodes to a Python list — an unhashable value. -/
def unhashableMsg : List (String × JVal) :=
  [("type", JVal.str "response"), ("requestId", JVal.arr [])]

/-- Claim C7 counterexample: the frame carries `requestId: []` — an id that
is not present in the pending table — but against a non-empty table
`self._pending.pop` raises `TypeError: unhashable type`, which escapes the
read loop (it is not `ConnectionClosed`) and drives its finally block: the
connection state is torn down (readiness cleared, websocket set to none),
the table is emptied, and the unrelated pending request is resolved with the
PeerDisconnected failure — refuting "no crash and no resolution of an
unrelated request; only a logged warning". -/
theorem C7_cex :
    dictGet unhashableMsg "requestId" = some (JVal.arr []) ∧
    oneReqState.connected = true ∧
    (dispatch oneReqState unhashableMsg).connected = false ∧
    (dispatch oneReqState unhashableMsg).websocket = none ∧
    (dispatch oneReqState unhashableMsg).pending = [] ∧
    (dispatch oneReqState unhashableMsg).futures.get? 0
      = some (FutureState.failure BridgeErr.peerDisconnected) :=
  ⟨rfl, rfl, rfl, rfl, rfl, rfl⟩

/-- Claim C7 (amended): a response frame whose requestId is hashable (a
string, number, bool or null) and not present in the pending table — or any
response frame against an empty table, thanks to the empty-dict fast path of
`dict.pop` — leaves the whole bridge state unchanged, the logged warning
being the only effect; but a response frame whose requestId is a JSON array
or object, against a non-empty table, raises `TypeError` from `dict.pop`,
which escapes the read loop and triggers its termination cleanup: the
connection is torn down and every pending request is failed with
PeerDisconnected. -/
theorem C7_amended_stale_response (s : BridgeState)
    (m : List (String × JVal))
    (htype : strTagEq (dictGet m "type") "response" = true) :
    (popPending s.pending (dictGet m "requestId") = PopResult.missing →
      dispatch s m = s) ∧
    (∀ elems, dictGet m "requestId" = some (JVal.arr elems) →
      s.pending ≠ [] → dispatch s m = terminationCleanup s) ∧
    (∀ fields, dictGet m "requestId" = some (JVal.obj fields) →
      s.pending ≠ [] → dispatch s m = terminationCleanup s) := by
  refine ⟨fun h => dispatch_pop_none s m h, ?_, ?_⟩
  · intro elems hr hne
    have hpop : popPending s.pending (dictGet m "requestId")
        = PopResult.typeError := by
      rw [hr, popPending_arr, isEmpty_false_of_ne_nil s.pending hne,
        if_neg Bool.false_ne_true]
    unfold dispatch
    rw [htype, hpop, if_pos rfl]
  · intro fields hr hne
    have hpop : popPending s.pending (dictGet m "requestId")
        = PopResult.typeError := by
      rw [hr, popPending_obj, isEmpty_false_of_ne_nil s.pending hne,
        if_neg Bool.false_ne_true]
    unfold dispatch
    rw [htype, hpop, if_pos rfl]

/-- Witness for C7 (amended): the no-crash branch on a stale string id and
the TypeError branch on an array id, both against the same concrete state. -/
theorem C7_amended_stale_response_witness :
    popPending oneReqState.pending (dictGet staleMsg "requestId")
        = PopResult.missing ∧
      dispatch oneReqState staleMsg = oneReqState ∧
      oneReqState.pending ≠ [] ∧
      dispatch oneReqState unhashableMsg = terminationCleanup oneReqState := by
  refine ⟨rfl, (C7_amended_stale_response oneReqState staleMsg rfl).1 rfl,
    by simp [oneReqState], ?_⟩
  exact (C7_amended_stale_response oneReqState unhashableMsg rfl).2.1 [] rfl
    (by simp [oneReqState])

/-- Claim C8: `shutdown` is idempotent — a second call leaves the state of
the first call unchanged (the stop event is already set and the current
websocket, if any, is already closed, so the close branch is skipped); a
call with no current session only sets the stop event and the terminal state
has the stop requested and no current session. -/
theorem C8_shutdown_idempotent (s : BridgeState) :
    shutdown (shutdown s) = shutdown s ∧
    (shutdown s).stop = true ∧
    (s.websocket = none →
      shutdown s = { s with stop := true } ∧ (shutdown s).websocket = none) := by
  cases hw : s.websocket with
  | none =>
    refine ⟨?_, ?_, fun _ => ⟨?_, ?_⟩⟩ <;> simp [shutdown, hw]
  | some w =>
    by_cases hcl : w ∈ s.closedWs
    · exact ⟨by simp [shutdown, hw, hcl], by simp [shutdown, hw, hcl],
        fun hc => absurd hc (by simp)⟩
    · exact ⟨by simp [shutdown, hw, hcl], by simp [shutdown, hw, hcl],
        fun hc => absurd hc (by simp)⟩

/-- The bridge state as freshly constructed, before any connection. -/
def freshState : BridgeState :=
  { connected := false, stop := false, websocket := none, closedWs := [],
    sentCloses := [], pending := [], futures := [] }

/-- Witness for C8 on a state with no current session. -/
theorem C8_shutdown_idempotent_witness :
    shutdown freshState = { freshState with stop := true } ∧
      shutdown (shutdown freshState) = shutdown freshState :=
  ⟨((C8_shutdown_idempotent freshState).2.2 rfl).1,
    (C8_shutdown_idempotent freshState).1⟩

/-- Claim C10: the outbound frame is built as `{"type": command, "requestId":
request_id}` and then the payload fields are merged over it, so a payload
key named requestId (or type) overrides the generated field and the id
actually sent can differ from the id registered in the table; an absent or
empty payload leaves exactly the two generated fields. -/
theorem C10_payload_overrides (c rid : String) (p : List (String × JVal))
    (v : JVal) (h : dictGet p "requestId" = some v) :
    dictGet (buildMessage c rid (some p)) "requestId" = some v ∧
    (∀ w, dictGet p "type" = some w →
      dictGet (buildMessage c rid (some p)) "type" = some w) ∧
    buildMessage c rid none
      = [("type", JVal.str c), ("requestId", JVal.str rid)] ∧
    buildMessage c rid (some [])
      = [("type", JVal.str c), ("requestId", JVal.str rid)] := by
  cases p with
  | nil => simp [dictGet] at h
  | cons a rest =>
    have hb : buildMessage c rid (some (a :: rest))
        = dictUpdate [("type", JVal.str c), ("requestId", JVal.str rid)]
            (a :: rest) := rfl
    refine ⟨?_, ?_, rfl, rfl⟩
    · rw [hb]
      cases hty : dictGet (a :: rest) "type" <;>
        (unfold dictUpdate
         simp only [List.map_cons, List.map_nil, List.cons_append, hty, h]
         rw [dictGet_cons, dictGet_cons]
         rfl)
    · intro w hw
      rw [hb]
      cases hreq : dictGet (a :: rest) "requestId" <;>
        (unfold dictUpdate
         simp only [List.map_cons, List.map_nil, List.cons_append, hreq, hw]
         rw [dictGet_cons]
         rfl)

/-- Witness for C10: a payload smuggling its own requestId; the frame built
for registered id `"real"` carries `"spoof"` instead. -/
theorem C10_payload_overrides_witness :
    dictGet (buildMessage "CMD" "real"
        (some [("requestId", JVal.str "spoof")])) "requestId"
      = some (JVal.str "spoof") :=
  (C10_payload_overrides "CMD" "real" [("requestId", JVal.str "spoof")]
    (JVal.str "spoof") rfl).1

/-- Claim C3: when the read loop of a session terminates, the cleanup clears
readiness, sets the current websocket to none, resolves every PendingRequest
still in the table with the same PeerDisconnected failure, and removes all
of them from the table. -/
theorem C3_termination_fails_all (s : BridgeState) (h : wellFormed s = true) :
    (terminationCleanup s).connected = false ∧
    (terminationCleanup s).websocket = none ∧
    (terminationCleanup s).pending = [] ∧
    ∀ q ∈ s.pending, (terminationCleanup s).futures.get? q.2.future
      = some (FutureState.failure BridgeErr.peerDisconnected) := by
  obtain ⟨_, hf, hp⟩ := wf_parts s h
  refine ⟨rfl, rfl, rfl, ?_⟩
  intro q hq
  exact fold_fails_mem _ _ _ q hq hf hp

/-- Witness for C3 on a state with one in-flight request. -/
theorem C3_termination_fails_all_witness :
    wellFormed oneReqState = true ∧
      (terminationCleanup oneReqState).connected = false ∧
      (terminationCleanup oneReqState).pending = [] :=
  ⟨rfl, (C3_termination_fails_all oneReqState rfl).1,
    (C3_termination_fails_all oneReqState rfl).2.2.1⟩

/-- A response frame for the pending id `"a"` whose success field is the
number 1: present, and not the boolean true. -/
def truthyNumMsg : List (String × JVal) :=
  [("type", JVal.str "response"), ("requestId", JVal.str "a"),
   ("success", JVal.num 1), ("data", JVal.str "payload")]

/-- Claim C4 counterexample: the frame carries `success: 1` — a success
field that is present and is not the boolean true — yet the dispatcher
resolves the slot with the data payload (a success resolution), not with a
failure: the source tests Python truthiness of the field, not equality with
true, so the claim's "otherwise resolves it with a failure" is false for
this frame. -/
theorem C4_cex :
    JVal.num 1 ≠ JVal.bool true ∧
    dictGetD truthyNumMsg "success" (JVal.bool true) = JVal.num 1 ∧
    (dispatch oneReqState truthyNumMsg).futures.get? 0
      = some (FutureState.result (JVal.str "payload")) :=
  ⟨fun hh => JVal.noConfusion hh, rfl, rfl⟩

/-- Claim C4 (amended): for a response frame whose requestId is found in the
table, the entry is removed and its slot resolved in the one dispatch step;
it is resolved with the data payload (null when absent) when the success
field is absent or truthy under Python truthiness, and otherwise with a
failure carrying the error field (or the default text "Roblox plugin
reported failure" when the error field is absent). -/
theorem C4_amended_dispatch (s : BridgeState) (m : List (String × JVal))
    (rid : String) (pr : PendingRequest)
    (hwf : wellFormed s = true)
    (htype : strTagEq (dictGet m "type") "response" = true)
    (hrid : dictGet m "requestId" = some (JVal.str rid))
    (hmem : (rid, pr) ∈ s.pending) :
    ((dictGetD m "success" (JVal.bool true)).truthy = true →
      (dispatch s m).futures.get? pr.future
        = some (FutureState.result (dictGetD m "data" JVal.null))) ∧
    ((dictGetD m "success" (JVal.bool true)).truthy = false →
      (dispatch s m).futures.get? pr.future
        = some (FutureState.failure (BridgeErr.peerReported
            (dictGetD m "error" (JVal.str "Roblox plugin reported failure"))))) ∧
    (dispatch s m).pending = popKey s.pending rid ∧
    ∀ q ∈ (dispatch s m).pending, q.1 ≠ rid := by
  obtain ⟨hk, hf, hp⟩ := wf_parts s hwf
  have hfind := find_eq_of_mem s.pending rid pr hk hmem
  have hpop : popPending s.pending (dictGet m "requestId")
      = PopResult.popped pr (popKey s.pending rid) := by
    rw [hrid, popPending_str, hfind]
  have hlt : pr.future < s.futures.length :=
    lt_length_of_get _ _ _ (hp (rid, pr) hmem)
  have hd := dispatch_found s m pr (popKey s.pending rid) htype hpop
  have hpend : (dispatch s m).pending = popKey s.pending rid := by
    rw [hd]
    cases hs : (dictGetD m "success" (JVal.bool true)).truthy
    · rw [if_neg Bool.false_ne_true]
    · rw [if_pos rfl]
  refine ⟨?_, ?_, hpend, ?_⟩
  · intro hs
    rw [hd, if_pos hs]
    exact get_set_self _ _ _ hlt
  · intro hs
    rw [hd, if_neg (by simp [hs])]
    exact get_set_self _ _ _ hlt
  · intro q hq
    rw [hpend] at hq
    exact popKey_key_ne s.pending rid hk q hq

/-- A response frame for the pending id `"a"` with the success field absent
(defaulting to true). -/
def okMsg : List (String × JVal) :=
  [("type", JVal.str "response"), ("requestId", JVal.str "a"),
   ("data", JVal.obj [("children", JVal.arr [JVal.str "A", JVal.str "B"])])]

/-- Witness for C4 (amended): a response with the success field absent
resolves the slot with its data payload. -/
theorem C4_amended_dispatch_witness :
    (dictGetD okMsg "success" (JVal.bool true)).truthy = true ∧
    (dispatch oneReqState okMsg).futures.get? 0
      = some (FutureState.result (dictGetD okMsg "data" JVal.null)) :=
  ⟨rfl, (C4_amended_dispatch oneReqState okMsg "a" ⟨0, "READ_SCRIPT"⟩ rfl rfl
    rfl (by decide)).1 rfl⟩

/-- A response frame answering the pending id `"a"` of `oneReqState`. -/
def respMsg : List (String × JVal) :=
  [("type", JVal.str "response"), ("requestId", JVal.str "a"),
   ("success", JVal.bool true), ("data", JVal.obj [])]

/-- Claim C5: at-most-once resolution.  Conjunct one: a slot already
resolved is never reassigned by the dispatcher, by fail-all-pending, or by
the timeout path.  Conjunct two: the timeout path resolves a still-pending
slot with the timeout failure.  Conjuncts three and four: in the
response/disconnect race, either order resolves the entry exactly once —
response first: the dispatcher resolves the slot and the disconnect pass
leaves the resolution in place; disconnect first: the slot holds the
PeerDisconnected failure and the late response finds no table entry and
changes nothing. -/
theorem C5_at_most_once (s : BridgeState) (m : List (String × JVal))
    (rid : String) (pr : PendingRequest)
    (hwf : wellFormed s = true)
    (htype : strTagEq (dictGet m "type") "response" = true)
    (hrid : dictGet m "requestId" = some (JVal.str rid))
    (hmem : (rid, pr) ∈ s.pending) :
    (∀ i st, s.futures.get? i = some st → st.isPending = false →
      (dispatch s m).futures.get? i = some st ∧
      (terminationCleanup s).futures.get? i = some st ∧
      ∀ r2 f2 c2,
        (requestTimeoutExpiry s r2 f2 c2).futures.get? i = some st) ∧
    (∀ r2 c2, (requestTimeoutExpiry s r2 pr.future c2).futures.get? pr.future
      = some (FutureState.failure (BridgeErr.requestTimeout c2))) ∧
    (∃ st, (dispatch s m).futures.get? pr.future = some st ∧
      st.isPending = false ∧
      (terminationCleanup (dispatch s m)).futures.get? pr.future = some st) ∧
    ((terminationCleanup s).futures.get? pr.future
        = some (FutureState.failure BridgeErr.peerDisconnected) ∧
      dispatch (terminationCleanup s) m = terminationCleanup s) := by
  obtain ⟨hk, hf, hp⟩ := wf_parts s hwf
  have hfind := find_eq_of_mem s.pending rid pr hk hmem
  have hpop : popPending s.pending (dictGet m "requestId")
      = PopResult.popped pr (popKey s.pending rid) := by
    rw [hrid, popPending_str, hfind]
  have hprp : s.futures.get? pr.future = some FutureState.pending :=
    hp (rid, pr) hmem
  have hlt : pr.future < s.futures.length := lt_length_of_get _ _ _ hprp
  have hd := dispatch_found s m pr (popKey s.pending rid) htype hpop
  refine ⟨?_, ?_, ?_, ?_, ?_⟩
  · intro i st hst hnp
    have hsome_ne : s.futures.get? i ≠ some FutureState.pending := by
      rw [hst]
      intro hh
      exact ne_pending_of_isPending_false st hnp (Option.some.inj hh)
    have hne : pr.future ≠ i := fun hh => hsome_ne (hh ▸ hprp)
    refine ⟨?_, ?_, ?_⟩
    · rw [hd]
      cases hsucc : (dictGetD m "success" (JVal.bool true)).truthy
      · rw [if_neg Bool.false_ne_true]
        exact (get_set_ne s.futures pr.future i _ hne).trans hst
      · rw [if_pos rfl]
        exact (get_set_ne s.futures pr.future i _ hne).trans hst
    · exact (fold_preserve_done BridgeErr.peerDisconnected s.pending
        s.futures i hsome_ne).trans hst
    · intro r2 f2 c2
      cases hg : s.futures.get? f2 with
      | none => simp only [requestTimeoutExpiry, hg]; exact hst
      | some st2 =>
        cases st2 with
        | pending =>
          have hne2 : f2 ≠ i := by
            intro hh
            rw [hh] at hg
            exact hsome_ne hg
          simp only [requestTimeoutExpiry, hg]
          exact (get_set_ne s.futures f2 i _ hne2).trans hst
        | result v => simp only [requestTimeoutExpiry, hg]; exact hst
        | failure e2 => simp only [requestTimeoutExpiry, hg]; exact hst
  · intro r2 c2
    simp only [requestTimeoutExpiry, hprp]
    exact get_set_self _ _ _ hlt
  · cases hsucc : (dictGetD m "success" (JVal.bool true)).truthy with
    | true =>
      have hdisp : (dispatch s m).futures.get? pr.future
          = some (FutureState.result (dictGetD m "data" JVal.null)) := by
        rw [hd, if_pos hsucc]
        exact get_set_self _ _ _ hlt
      refine ⟨FutureState.result (dictGetD m "data" JVal.null), hdisp, rfl, ?_⟩
      exact (fold_preserve_done BridgeErr.peerDisconnected
        (dispatch s m).pending (dispatch s m).futures pr.future
        (by rw [hdisp]
            intro hh
            exact FutureState.noConfusion (Option.some.inj hh))).trans hdisp
    | false =>
      have hdisp : (dispatch s m).futures.get? pr.future
          = some (FutureState.failure (BridgeErr.peerReported
              (dictGetD m "error"
                (JVal.str "Roblox plugin reported failure")))) := by
        rw [hd, if_neg (by simp [hsucc])]
        exact get_set_self _ _ _ hlt
      refine ⟨_, hdisp, rfl, ?_⟩
      exact (fold_preserve_done BridgeErr.peerDisconnected
        (dispatch s m).pending (dispatch s m).futures pr.future
        (by rw [hdisp]
            intro hh
            exact FutureState.noConfusion (Option.some.inj hh))).trans hdisp
  · exact fold_fails_mem _ _ _ (rid, pr) hmem hf hp
  · exact dispatch_pop_none _ m (popPending_nil _)

/-- Witness for C5: the disconnect-first order on a concrete state. -/
theorem C5_at_most_once_witness :
    wellFormed oneReqState = true ∧
      (terminationCleanup oneReqState).futures.get? 0
        = some (FutureState.failure BridgeErr.peerDisconnected) :=
  ⟨rfl, (C5_at_most_once oneReqState respMsg "a" ⟨0, "READ_SCRIPT"⟩ rfl rfl
    rfl (by decide)).2.2.2.1⟩

/-- Session A (socket 0) is current and the table is empty. -/
def c6Start : BridgeState :=
  { connected := true, stop := false, websocket := some 0, closedWs := [],
    sentCloses := [], pending := [], futures := [] }

/-- Session B (socket 1) has just superseded A. -/
def c6AfterB : BridgeState := acceptConnection c6Start 1

/-- A request registered while B is the current session. -/
def c6AfterReg : BridgeState := registerRequest c6AfterB "GET_CHILDREN" "r1"

/-- Claim C6 counterexample: session A (socket 0) is current, session B
(socket 1) supersedes it, and a request r1 is registered while B is current;
when the read-loop cleanup of A then runs (its finally block is not ordered
before operations on B), it fails r1 with the PeerDisconnected failure and
clears the current websocket even though B is current — so a request sent
after B became current IS failed by the termination of A, refuting the
claim. -/
theorem C6_cex :
    c6AfterReg.websocket = some 1 ∧
    c6AfterReg.futures.get? 0 = some FutureState.pending ∧
    (terminationCleanup c6AfterReg).futures.get? 0
      = some (FutureState.failure BridgeErr.peerDisconnected) ∧
    (terminationCleanup c6AfterReg).websocket = none :=
  ⟨rfl, rfl, rfl, rfl⟩

/-- Claim C6 (amended): a superseded session is closed with code 4001 reason
"Superseded" while shutdown closes with the distinct code 4000 reason
"Server shutdown"; but the read-loop cleanup run when a session terminates
fails every entry in the table at the time it runs — with no exemption for
entries registered after a new session became current — and unconditionally
clears readiness and sets the current websocket to none. -/
theorem C6_amended_supersession (s s2 : BridgeState) (a b w : Nat)
    (hcur : s.websocket = some a) (hwf2 : wellFormed s2 = true) :
    (acceptConnection s b).sentCloses
        = s.sentCloses ++ [(a, 4001, "Superseded")] ∧
    (acceptConnection s b).websocket = some b ∧
    (4001 : Nat) ≠ 4000 ∧
    (∀ s3 : BridgeState, s3.websocket = some w → w ∉ s3.closedWs →
      (shutdown s3).sentCloses
        = s3.sentCloses ++ [(w, 4000, "Server shutdown")]) ∧
    (∀ q ∈ s2.pending, (terminationCleanup s2).futures.get? q.2.future
        = some (FutureState.failure BridgeErr.peerDisconnected)) ∧
    (terminationCleanup s2).websocket = none := by
  obtain ⟨_, hf2, hp2⟩ := wf_parts s2 hwf2
  refine ⟨?_, ?_, by norm_num, ?_, ?_, rfl⟩
  · simp [acceptConnection, hcur]
  · simp [acceptConnection, hcur]
  · intro s3 h3 hncl
    simp [shutdown, h3, hncl]
  · intro q hq
    exact fold_fails_mem _ _ _ q hq hf2 hp2

/-- Witness for C6 (amended) on the concrete supersession scenario. -/
theorem C6_amended_supersession_witness :
    (acceptConnection c6Start 1).sentCloses = [(0, 4001, "Superseded")] ∧
      (terminationCleanup c6AfterReg).websocket = none := by
  have h := C6_amended_supersession c6Start c6AfterReg 0 1 5 rfl rfl
  exact ⟨by simpa [c6Start] using h.1, h.2.2.2.2.2⟩

end RobloxMcp
